import Mathlib

/-!
Verification of the batdetect2 post-processing score script (`biosonic/score.py`).

The script derives a ground-truth label from each result record's identifier,
extracts per-detection (predicted class, confidence) pairs, builds a binary
confusion vector against a constant threshold, and feeds the vectors into
external statistical routines (roc_auc_score, balanced_accuracy_score,
precision_recall_curve, auc from sklearn).

Strings are modelled as Lean `String`; the script's float confidences are
modelled as rationals (the script only compares them against the constant
threshold 0.7 and passes them through); fallible steps (JSON parsing, the
sklearn calls, which raise on degenerate input) are modelled in `Except`.
-/

namespace Biosonic

/-- The constant `THRESHOLD = 0.7` of the script,
written as the normalised rational `mkRat 7 10` so that the kernel can
evaluate comparisons against it; `THRESHOLD_eq` below proves it equal to
`7 / 10`. -/
def THRESHOLD : ℚ := mkRat 7 10

/-- Python's `filename.split('_')` on the character list of the string:
never returns an empty list; consecutive separators yield empty parts. -/
def split_on_uscore : List Char → List (List Char)
  | [] => [[]]
  | c :: cs =>
    let rest := split_on_uscore cs
    if c = '_' then [] :: rest
    else
      match rest with
      | r :: rs => (c :: r) :: rs
      | [] => [[c]]

/-- The final value of the loop index `i` in `extract_true_label`:
Python's `for i, part in enumerate(parts): if any(char.isdigit() ...): break`
leaves `i` at the first digit-containing part, or at the last index when no
part contains a digit (the loop completes without breaking). -/
def first_digit_break : List (List Char) → Nat
  | [] => 0
  | part :: rest =>
    if part.any Char.isDigit then 0
    else
      match rest with
      | [] => 0
      | _ :: _ => 1 + first_digit_break rest

/-- The function `extract_true_label` from score.py: split the filename on underscores,
stop at the first part containing a digit, join the earlier parts with
spaces. -/
def extract_true_label (filename : String) : String :=
  (List.intercalate [' ']
    ((split_on_uscore filename.toList).take
      (first_digit_break (split_on_uscore filename.toList)))).asString

/-- One detection entry of a result record: the JSON object
`{"class": ..., "class_prob": ...}`. The field `cls` embeds the JSON key
`class` (a Lean keyword). -/
structure Ann where
  cls : String
  class_prob : ℚ
deriving DecidableEq

/-- One result record: the JSON object with its `id` string and its list of
detection entries (the record's `annotation` array, embedded as `anns`). -/
structure Entry where
  id : String
  anns : List Ann
deriving DecidableEq

/-- The per-record body of the loop in `extract_labels_and_predictions`:
the record's true class repeated once per detection entry, and one
(predicted class, confidence) pair per entry, where the confidence is
`class_prob` when the entry's class equals the true class and
`1 - class_prob` otherwise. -/
def label_and_pred_of (e : Entry) : List String × List (String × ℚ) :=
  let true_class := extract_true_label e.id
  (e.anns.map (fun _ => true_class),
   e.anns.map (fun a =>
     if a.cls = true_class then (a.cls, a.class_prob)
     else (a.cls, 1 - a.class_prob)))

/-- The function `extract_labels_and_predictions` from score.py: a single pass over the
records appending per-entry elements to `y_true` and `y_pred` in record
order then entry order. -/
def extract_labels_and_predictions (data : List Entry) :
    List String × List (String × ℚ) :=
  ((data.map (fun e => (label_and_pred_of e).1)).flatten,
   (data.map (fun e => (label_and_pred_of e).2)).flatten)

/-- Python's `str.lower()`, embedded character-wise. -/
def lower_str (s : String) : String :=
  ⟨s.toList.map Char.toLower⟩

/-- The list comprehension `[(y[0].lower(), y[1]) for y in y_pred]` at the
top of `calculate_metrics`. -/
def lower_preds (y_pred : List (String × ℚ)) : List (String × ℚ) :=
  y_pred.map (fun y => (lower_str y.1, y.2))

/-- The four-branch body of the loop in `calculate_metrics`, producing the
pair (element appended to `y_true_binary`, element appended to
`y_pred_binary`) for one (true label, lowered prediction) row. -/
def classify_row (t : String) (p : String × ℚ) : Nat × Nat :=
  if t = p.1 ∧ p.2 ≥ THRESHOLD then (1, 1)
  else if t = p.1 ∧ p.2 < THRESHOLD then (1, 0)
  else if t ≠ p.1 ∧ p.2 ≥ THRESHOLD then (0, 1)
  else (0, 0)

/-- The `y_scores` list built by the loop in `calculate_metrics`:
`y_scores.append(y_pred[i][1])` for `i in range(len(y_true))`. The loop
indexes `y_pred` at the same positions, so it is embedded as a zip; the
extractor always supplies lists of equal length. -/
def build_scores (y_true : List String) (y_pred : List (String × ℚ)) : List ℚ :=
  (y_true.zip y_pred).map (fun r => r.2.2)

/-- The `y_true_binary` list built by the loop in `calculate_metrics`. -/
def build_true_binary (y_true : List String) (y_pred : List (String × ℚ)) :
    List Nat :=
  (y_true.zip y_pred).map (fun r => (classify_row r.1 r.2).1)

/-- The `y_pred_binary` list built by the loop in `calculate_metrics`. -/
def build_pred_binary (y_true : List String) (y_pred : List (String × ℚ)) :
    List Nat :=
  (y_true.zip y_pred).map (fun r => (classify_row r.1 r.2).2)

/-- Model of the external sklearn call `roc_auc_score` on binary 0/1 truth:
per the spec's glossary, the probability that a random positive scores
higher than a random negative (ties counted half). sklearn raises a
ValueError when the truth vector is empty or contains only one class; both
degenerate cases are the `Except.error` branch here. -/
def rocAucScore (y_true : List Nat) (y_score : List ℚ) : Except String ℚ :=
  let pairs := y_true.zip y_score
  let pos := (pairs.filter (fun p => p.1 == 1)).map (fun p => p.2)
  let neg := (pairs.filter (fun p => p.1 != 1)).map (fun p => p.2)
  if pos.length = 0 ∨ neg.length = 0 then
    Except.error "sklearn ValueError: ROC AUC score is not defined in that case"
  else
    Except.ok
      (((pos.map (fun s =>
          (neg.map (fun t =>
            if t < s then (1 : ℚ) else if t = s then 1 / 2 else 0)).sum)).sum)
        / ((pos.length : ℚ) * (neg.length : ℚ)))

/-- Model of the external sklearn call `balanced_accuracy_score`: per the
spec's glossary, the unweighted mean over the classes present in the truth
vector of that class's recall. sklearn raises on an empty sample. -/
def balancedAccuracyScore (y_true y_pred : List Nat) : Except String ℚ :=
  if y_true.isEmpty then
    Except.error "sklearn ValueError: found array with 0 samples"
  else
    let pairs := y_true.zip y_pred
    let classes := y_true.dedup
    let recalls := classes.map (fun c =>
      (((pairs.filter (fun p => p.1 == c && p.2 == c)).length : ℚ)) /
        (((y_true.filter (fun v => v == c)).length : ℚ)))
    Except.ok (recalls.sum / (classes.length : ℚ))

/-- Model of the external sklearn call `precision_recall_curve`: one
(precision, recall) point per distinct score threshold, plus the final
(1, 0) point, so a nonempty sample always yields at least two points.
sklearn raises on an empty sample. -/
def precisionRecallCurve (y_true : List Nat) (y_score : List ℚ) :
    Except String (List ℚ × List ℚ) :=
  if y_true.isEmpty then
    Except.error "sklearn ValueError: found array with 0 samples"
  else
    let pairs := y_true.zip y_score
    let npos := ((pairs.filter (fun p => p.1 == 1)).length : ℚ)
    let thresholds := y_score.dedup
    let precisions := thresholds.map (fun t =>
      let predpos := pairs.filter (fun p => p.2 ≥ t)
      (((predpos.filter (fun p => p.1 == 1)).length : ℚ) /
        ((predpos.length : ℚ))))
    let recalls := thresholds.map (fun t =>
      let predpos := pairs.filter (fun p => p.2 ≥ t)
      (((predpos.filter (fun p => p.1 == 1)).length : ℚ) / npos))
    Except.ok (precisions ++ [1], recalls ++ [0])

/-- Model of the external sklearn call `auc`: discrete trapezoidal
integration of y over x. sklearn raises when fewer than two points are
given; its monotonicity check on x is omitted because the recall points of
`precisionRecallCurve` are always monotone. -/
def aucTrapezoid (x y : List ℚ) : Except String ℚ :=
  if x.length < 2 then
    Except.error "sklearn ValueError: at least 2 points are needed"
  else
    Except.ok |(((x.zip x.tail).zip (y.zip y.tail)).map
      (fun p => (p.1.2 - p.1.1) * (p.2.1 + p.2.2) / 2)).sum|

/-- The function `calculate_metrics` from score.py, parameterised over the ROC routine
so that not calling it in the degenerate branch is expressible: lower the
predicted labels, build the score and binary vectors, return AUROC as
`none` when the binary truth vector holds a single distinct value and as
the ROC routine's value otherwise, then balanced accuracy and AUPRC. -/
def calc_metrics_with (roc : List Nat → List ℚ → Except String ℚ)
    (y_true : List String) (y_pred : List (String × ℚ)) :
    Except String (Option ℚ × ℚ × ℚ) := do
  let yp := lower_preds y_pred
  let y_scores := build_scores y_true yp
  let y_true_binary := build_true_binary y_true yp
  let y_pred_binary := build_pred_binary y_true yp
  let auroc ←
    if y_true_binary.dedup.length = 1 then Except.ok none
    else do
      let a ← roc y_true_binary y_scores
      Except.ok (some a)
  let balanced_acc ← balancedAccuracyScore y_true_binary y_pred_binary
  let pr ← precisionRecallCurve y_true_binary y_scores
  let auprc ← aucTrapezoid pr.2 pr.1
  Except.ok (auroc, balanced_acc, auprc)

/-- The script's `calculate_metrics`, with the actual ROC routine plugged in. -/
def calculate_metrics (y_true : List String) (y_pred : List (String × ℚ)) :
    Except String (Option ℚ × ℚ × ℚ) :=
  calc_metrics_with rocAucScore y_true y_pred

/-- The AUROC line printed by `main`: the sentinel sentence when AUROC is
`None`, the numeric value otherwise. -/
def auroc_line (a : Option ℚ) : String :=
  match a with
  | some v => "AUROC: " ++ toString v
  | none => "AUROC: Not defined (only one class present in y_true)"

/-- The loader's console reports: the file count line, then the warning
when no JSON file was found. -/
def load_reports (data_dir : String) (n : Nat) : List String :=
  ["Found " ++ toString n ++ " JSON files."] ++
    (if n = 0 then ["No JSON files found in directory: " ++ data_dir] else [])

/-- The parsing loop of `load_json_files`: `json.load` results are appended
in order; an uncaught parse error anywhere aborts the whole call with that
error and no partial list is returned. -/
def collect_parsed : List (Except String Entry) → Except String (List Entry)
  | [] => Except.ok []
  | x :: xs => do
    let v ← x
    let vs ← collect_parsed xs
    Except.ok (v :: vs)

/-- The function `load_json_files` from score.py over the parse results of the
discovered files: the console reports, and the loaded records or the first
parse error. -/
def load_json_files (data_dir : String) (parsed : List (Except String Entry)) :
    List String × Except String (List Entry) :=
  (load_reports data_dir parsed.length, collect_parsed parsed)

/-- The metric half of `main`: extract labels and predictions, compute the
metrics, and print the AUROC / AUPRC / Balanced Accuracy lines in that
order. -/
def run_metrics (data : List Entry) : Except String (List String) := do
  let v := extract_labels_and_predictions data
  let m ← calculate_metrics v.1 v.2
  Except.ok [auroc_line m.1,
    "AUPRC: " ++ toString m.2.2,
    "Balanced Accuracy: " ++ toString m.2.1]

/-- The function `main` from score.py: load the files, then compute and report the
metrics; the console reports of the loader happen before any error can
abort the rest. -/
def main_pipeline (data_dir : String) (parsed : List (Except String Entry)) :
    List String × Except String (List String) :=
  let l := load_json_files data_dir parsed
  (l.1, do
    let data ← l.2
    run_metrics data)

/-! ### Lemmas about the label-extraction loop index -/

/-- Unfolding of the loop index on a digit-containing head part. -/
lemma fdb_cons_digit (part : List Char) (rest : List (List Char))
    (hp : part.any Char.isDigit = true) :
    first_digit_break (part :: rest) = 0 := by
  unfold first_digit_break
  simp [hp]

/-- Unfolding of the loop index on a digit-free head with more parts. -/
lemma fdb_cons_cons (part r : List Char) (rs : List (List Char))
    (hp : part.any Char.isDigit = false) :
    first_digit_break (part :: r :: rs) = 1 + first_digit_break (r :: rs) := by
  conv_lhs => unfold first_digit_break
  simp [hp]

/-- When some part contains a digit, the parts kept by `extract_true_label`
are exactly the longest digit-free prefix of the parts. -/
lemma fdb_take_of_any (parts : List (List Char)) :
    parts.any (fun part => part.any Char.isDigit) = true →
    parts.take (first_digit_break parts) =
      parts.takeWhile (fun part => !part.any Char.isDigit) := by
  induction parts with
  | nil => intro h; simp at h
  | cons part rest ih =>
    intro h
    by_cases hp : part.any Char.isDigit
    · rw [fdb_cons_digit part rest hp]
      simp [List.takeWhile_cons, hp]
    · have hp' : part.any Char.isDigit = false := by simpa using hp
      cases rest with
      | nil => simp [hp'] at h
      | cons r rs =>
        have hr : (r :: rs).any (fun part => part.any Char.isDigit) = true := by
          simpa [hp'] using h
        have h2 := ih hr
        rw [fdb_cons_cons part r rs hp', Nat.add_comm, List.take_succ_cons, h2]
        simp [List.takeWhile_cons, hp']

/-- When no part contains a digit, the loop completes and the parts kept
by `extract_true_label` are all parts but the last. -/
lemma fdb_take_of_not_any (parts : List (List Char)) :
    parts.any (fun part => part.any Char.isDigit) = false →
    parts.take (first_digit_break parts) = parts.dropLast := by
  induction parts with
  | nil => intro _; simp [first_digit_break]
  | cons part rest ih =>
    intro h
    simp only [List.any_cons, Bool.or_eq_false_iff] at h
    cases rest with
    | nil =>
      rw [show first_digit_break [part] = 0 by unfold first_digit_break; simp [h.1]]
      simp
    | cons r rs =>
      have h2 := ih h.2
      rw [fdb_cons_cons part r rs h.1, Nat.add_comm, List.take_succ_cons, h2]
      simp [List.dropLast]

/-- C1: for every identifier whose underscore-split parts include a part
with a digit, `extract_true_label` returns the space-separated join of all
parts strictly before the first digit-containing part; in particular it
maps "myotis_lucifugus_001" to "myotis lucifugus". -/
theorem claim_C1 :
    (∀ s : String,
      (split_on_uscore s.toList).any (fun part => part.any Char.isDigit) = true →
      extract_true_label s =
        (List.intercalate [' ']
          ((split_on_uscore s.toList).takeWhile
            (fun part => !part.any Char.isDigit))).asString) ∧
    extract_true_label "myotis_lucifugus_001" = "myotis lucifugus" := by
  constructor
  · intro s h
    unfold extract_true_label
    rw [fdb_take_of_any _ h]
  · decide

/-- Witness for C1 at the identifier "myotis_lucifugus_001". -/
theorem claim_C1_witness :
    ((split_on_uscore "myotis_lucifugus_001".toList).any
        (fun part => part.any Char.isDigit) = true) ∧
    extract_true_label "myotis_lucifugus_001" =
      (List.intercalate [' ']
        ((split_on_uscore "myotis_lucifugus_001".toList).takeWhile
          (fun part => !part.any Char.isDigit))).asString :=
  ⟨by decide, claim_C1.1 "myotis_lucifugus_001" (by decide)⟩

/-- C8: for every identifier whose underscore-split parts contain no digit
anywhere, `extract_true_label` drops the final part and returns the
space-separated join of the rest; in particular a single digit-free part
such as "bat" yields the empty string. -/
theorem claim_C8 :
    (∀ s : String,
      (split_on_uscore s.toList).any (fun part => part.any Char.isDigit) = false →
      extract_true_label s =
        (List.intercalate [' '] (split_on_uscore s.toList).dropLast).asString) ∧
    extract_true_label "bat" = "" := by
  constructor
  · intro s h
    unfold extract_true_label
    rw [fdb_take_of_not_any _ h]
  · decide

/-- Witness for C8 at the identifier "big_brown_bat". -/
theorem claim_C8_witness :
    ((split_on_uscore "big_brown_bat".toList).any
        (fun part => part.any Char.isDigit) = false) ∧
    extract_true_label "big_brown_bat" =
      (List.intercalate [' ']
        (split_on_uscore "big_brown_bat".toList).dropLast).asString :=
  ⟨by decide, claim_C8.1 "big_brown_bat" (by decide)⟩

/-! ### The threshold constant and the confusion classification -/

/-- The threshold constant is the rational 0.7. -/
lemma THRESHOLD_eq : THRESHOLD = 7 / 10 := by
  rw [THRESHOLD, Rat.mkRat_eq_div]; norm_num

/-- A 0/1 indicator equals 1 exactly when its condition holds. -/
lemma ite_one_eq_one (p : Prop) [Decidable p] :
    (if p then (1 : Nat) else 0) = 1 ↔ p := by
  by_cases h : p <;> simp [h]

/-- The four branches of the confusion loop collapse into two independent
indicators: label equality on the truth side, the threshold comparison on
the prediction side. -/
lemma classify_row_eq (t : String) (p : String × ℚ) :
    classify_row t p =
      (if t = p.1 then 1 else 0, if THRESHOLD ≤ p.2 then 1 else 0) := by
  unfold classify_row
  by_cases h1 : t = p.1 <;> by_cases h2 : THRESHOLD ≤ p.2
  · simp [h1, h2, ge_iff_le]
  · simp [h1, h2, ge_iff_le, not_le.mp h2]
  · simp [h1, h2, ge_iff_le]
  · simp [h1, h2, ge_iff_le, not_le.mp h2]

/-- C3: `calculate_metrics` classifies each (true label, predicted label,
confidence) triple through exactly two tests: the binary truth value is 1
precisely when the lower-cased predicted label equals the true label, and
the binary prediction is 1 precisely when the confidence reaches the
constant threshold 0.7; the lowering is the one applied to every predicted
pair. -/
theorem claim_C3 (t pl : String) (c : ℚ) :
    ((classify_row t (lower_str pl, c)).1 = 1 ↔ t = lower_str pl) ∧
    ((classify_row t (lower_str pl, c)).2 = 1 ↔ THRESHOLD ≤ c) ∧
    THRESHOLD = 7 / 10 ∧
    lower_preds [(pl, c)] = [(lower_str pl, c)] := by
  refine ⟨?_, ?_, THRESHOLD_eq, by simp [lower_preds]⟩
  · rw [classify_row_eq]; exact ite_one_eq_one _
  · rw [classify_row_eq]; exact ite_one_eq_one _

/-- C10: in the vectors built by `calculate_metrics`, the binary prediction
at every index is 1 exactly when the score at that index reaches the
threshold, independent of the label comparison. -/
theorem claim_C10 (y_true : List String) (y_pred : List (String × ℚ)) (i : Nat)
    (h1 : i < (build_pred_binary y_true (lower_preds y_pred)).length)
    (h2 : i < (build_scores y_true (lower_preds y_pred)).length) :
    (build_pred_binary y_true (lower_preds y_pred)).get ⟨i, h1⟩ = 1 ↔
      THRESHOLD ≤ (build_scores y_true (lower_preds y_pred)).get ⟨i, h2⟩ := by
  simp only [build_pred_binary, build_scores, List.get_eq_getElem,
    List.getElem_map] at h1 h2 ⊢
  rw [classify_row_eq]
  exact ite_one_eq_one _

/-- Witness for C10 at a one-row input whose score 0.9 clears the
threshold. -/
theorem claim_C10_witness :
    (build_pred_binary ["a"] (lower_preds [("A", mkRat 9 10)])).get ⟨0, by decide⟩ = 1 ↔
      THRESHOLD ≤ (build_scores ["a"] (lower_preds [("A", mkRat 9 10)])).get ⟨0, by decide⟩ :=
  claim_C10 ["a"] [("A", mkRat 9 10)] 0 (by decide) (by decide)

/-! ### The extractor's output lists -/

/-- C4: per record and per annotation entry, the extractor emits exactly
one (predicted class, confidence) pair, whose confidence is `class_prob`
when the entry's class equals the derived true class and `1 - class_prob`
otherwise. -/
theorem claim_C4 (data : List Entry) :
    (extract_labels_and_predictions data).2 =
      (data.map (fun e => e.anns.map (fun a =>
        (a.cls, if a.cls = extract_true_label e.id then a.class_prob
          else 1 - a.class_prob)))).flatten := by
  simp only [extract_labels_and_predictions, label_and_pred_of]
  refine congrArg List.flatten (List.map_congr_left fun e _ => ?_)
  refine List.map_congr_left fun a _ => ?_
  by_cases h : a.cls = extract_true_label e.id <;> simp [h]

/-- C6: label derivation is a deterministic pure function of the
identifier: equal identifiers give equal true classes; the truth column of
the extractor depends on a record only through its identifier and its
number of annotation entries, never on the predictions' content. -/
theorem claim_C6 :
    (∀ s1 s2 : String, s1 = s2 → extract_true_label s1 = extract_true_label s2) ∧
    (∀ data : List Entry,
      (extract_labels_and_predictions data).1 =
        (data.map (fun e =>
          List.replicate e.anns.length (extract_true_label e.id))).flatten) ∧
    (∀ (idStr : String) (a1 a2 : List Ann), a1.length = a2.length →
      (extract_labels_and_predictions [⟨idStr, a1⟩]).1 =
        (extract_labels_and_predictions [⟨idStr, a2⟩]).1) := by
  refine ⟨fun s1 s2 h => by rw [h], fun data => ?_, fun idStr a1 a2 h => ?_⟩
  · simp [extract_labels_and_predictions, label_and_pred_of]
  · simp [extract_labels_and_predictions, label_and_pred_of, h]

/-- Witness for C6: the same identifier with different annotation contents
of equal count yields the same truth column. -/
theorem claim_C6_witness :
    extract_true_label "bat_001" = extract_true_label "bat_001" ∧
    (extract_labels_and_predictions [⟨"bat_001", [⟨"x", mkRat 1 2⟩]⟩]).1 =
      (extract_labels_and_predictions [⟨"bat_001", [⟨"y", mkRat 1 3⟩]⟩]).1 :=
  ⟨claim_C6.1 "bat_001" "bat_001" rfl,
   claim_C6.2.2 "bat_001" [⟨"x", mkRat 1 2⟩] [⟨"y", mkRat 1 3⟩] (by decide)⟩

/-- C9: the extractor returns `y_true` and `y_pred` of equal length, one
element per annotation entry, and on equal-length inputs every vector
built by `calculate_metrics` has exactly that length again. -/
theorem claim_C9 :
    (∀ data : List Entry,
      (extract_labels_and_predictions data).1.length =
          (extract_labels_and_predictions data).2.length ∧
        (extract_labels_and_predictions data).1.length =
          (data.map (fun e => e.anns.length)).sum) ∧
    (∀ (y_true : List String) (y_pred : List (String × ℚ)),
      y_true.length = y_pred.length →
      (lower_preds y_pred).length = y_true.length ∧
        (build_true_binary y_true (lower_preds y_pred)).length = y_true.length ∧
        (build_pred_binary y_true (lower_preds y_pred)).length = y_true.length ∧
        (build_scores y_true (lower_preds y_pred)).length = y_true.length) := by
  constructor
  · intro data
    constructor
    · simp [extract_labels_and_predictions, label_and_pred_of, Function.comp_def]
    · simp [extract_labels_and_predictions, label_and_pred_of, Function.comp_def]
  · intro y_true y_pred h
    refine ⟨?_, ?_, ?_, ?_⟩ <;>
      simp [lower_preds, build_true_binary, build_pred_binary, build_scores, h]

/-- Witness for C9 at a one-record input. -/
theorem claim_C9_witness :
    (["a"] : List String).length = ([("b", mkRat 1 2)] : List (String × ℚ)).length ∧
    ((lower_preds [("b", mkRat 1 2)]).length = (["a"] : List String).length ∧
      (build_true_binary ["a"] (lower_preds [("b", mkRat 1 2)])).length =
        (["a"] : List String).length ∧
      (build_pred_binary ["a"] (lower_preds [("b", mkRat 1 2)])).length =
        (["a"] : List String).length ∧
      (build_scores ["a"] (lower_preds [("b", mkRat 1 2)])).length =
        (["a"] : List String).length) :=
  ⟨by decide, claim_C9.2 ["a"] [("b", mkRat 1 2)] (by decide)⟩

/-! ### The metric pipeline in `Except` -/

/-- Bind on a successful `Except` runs the continuation. -/
lemma except_ok_bind {α β : Type} (a : α) (f : α → Except String β) :
    ((Except.ok a : Except String α) >>= f) = f a := rfl

/-- Bind on a failed `Except` propagates the error. -/
lemma except_error_bind {α β : Type} (e : String) (f : α → Except String β) :
    ((Except.error e : Except String α) >>= f) = Except.error e := rfl

/-- The truth and score vectors of `calculate_metrics` have equal length. -/
lemma build_lengths_eq (yt : List String) (yp : List (String × ℚ)) :
    (build_true_binary yt yp).length = (build_scores yt yp).length := by
  simp [build_true_binary, build_scores]

/-- A nonempty truth vector forces a nonempty score vector. -/
lemma build_scores_ne_nil (yt : List String) (yp : List (String × ℚ))
    (h : build_true_binary yt yp ≠ []) : build_scores yt yp ≠ [] := by
  intro hs
  apply h
  have hlen := build_lengths_eq yt yp
  rw [hs, List.length_nil] at hlen
  exact List.length_eq_zero.mp hlen

/-- The call `balanced_accuracy_score` succeeds on a nonempty sample. -/
lemma balancedAccuracyScore_ok (yt yp : List Nat) (h : yt ≠ []) :
    ∃ v, balancedAccuracyScore yt yp = Except.ok v := by
  simp only [balancedAccuracyScore]
  rw [if_neg (by simpa using h)]
  exact ⟨_, rfl⟩

/-- The call `precision_recall_curve` succeeds on a nonempty sample, with at least
two recall points. -/
lemma precisionRecallCurve_ok (yt : List Nat) (ys : List ℚ)
    (hyt : yt ≠ []) (hys : ys ≠ []) :
    ∃ pr : List ℚ × List ℚ,
      precisionRecallCurve yt ys = Except.ok pr ∧ 2 ≤ pr.2.length := by
  simp only [precisionRecallCurve]
  rw [if_neg (by simpa using hyt)]
  refine ⟨_, rfl, ?_⟩
  have hd : ys.dedup ≠ [] := by simpa [List.dedup_eq_nil] using hys
  have hdl : 0 < ys.dedup.length := List.length_pos.mpr hd
  simp only [List.length_append, List.length_map, List.length_cons,
    List.length_nil]
  omega

/-- The call `auc` succeeds once at least two points are given. -/
lemma aucTrapezoid_ok (x y : List ℚ) (h : 2 ≤ x.length) :
    ∃ v, aucTrapezoid x y = Except.ok v := by
  simp only [aucTrapezoid]
  rw [if_neg (by omega)]
  exact ⟨_, rfl⟩

/-- A member of the first column of equal-length lists appears in the zip
with some partner. -/
lemma exists_pair_mem_zip {α β : Type} (a : α) (l1 : List α) (l2 : List β)
    (hlen : l1.length = l2.length) (ha : a ∈ l1) :
    ∃ b, (a, b) ∈ l1.zip l2 := by
  induction l1 generalizing l2 with
  | nil => simp at ha
  | cons x xs ih =>
    cases l2 with
    | nil => simp at hlen
    | cons y yys =>
      rcases List.mem_cons.mp ha with rfl | hmem
      · exact ⟨y, by simp⟩
      · obtain ⟨b, hb⟩ := ih yys (by simpa using hlen) hmem
        exact ⟨b, List.mem_cons_of_mem _ hb⟩

/-- The call `roc_auc_score` succeeds when both binary classes occur in the truth
vector. -/
lemma rocAucScore_ok_of_both (yt : List Nat) (ys : List ℚ)
    (hlen : yt.length = ys.length) (h0 : 0 ∈ yt) (h1 : 1 ∈ yt) :
    ∃ v, rocAucScore yt ys = Except.ok v := by
  obtain ⟨q1, hq1⟩ := exists_pair_mem_zip 1 yt ys hlen h1
  obtain ⟨q0, hq0⟩ := exists_pair_mem_zip 0 yt ys hlen h0
  have hpos : ((yt.zip ys).filter (fun p => p.1 == 1)) ≠ [] :=
    List.ne_nil_of_mem (List.mem_filter.mpr ⟨hq1, by simp⟩)
  have hneg : ((yt.zip ys).filter (fun p => p.1 != 1)) ≠ [] :=
    List.ne_nil_of_mem (List.mem_filter.mpr ⟨hq0, by simp⟩)
  simp only [rocAucScore]
  rw [if_neg]
  · exact ⟨_, rfl⟩
  · rw [not_or]
    constructor
    · simpa [List.length_eq_zero] using hpos
    · simpa [List.length_eq_zero] using hneg

/-- A truth vector containing both classes has more than one distinct
value. -/
lemma dedup_len_ne_one (l : List Nat) (h0 : 0 ∈ l) (h1 : 1 ∈ l) :
    l.dedup.length ≠ 1 := by
  intro h
  obtain ⟨c, hc⟩ := List.length_eq_one.mp h
  have h0' := List.mem_dedup.mpr h0
  have h1' := List.mem_dedup.mpr h1
  rw [hc] at h0' h1'
  simp only [List.mem_singleton] at h0' h1'
  omega

/-- One-class truth vector: AUROC is `none`, no ROC routine is consulted,
and the remaining metric calls succeed. -/
lemma calc_metrics_one_class (y_true : List String) (y_pred : List (String × ℚ))
    (hcond : (build_true_binary y_true (lower_preds y_pred)).dedup.length = 1) :
    (∀ roc, calc_metrics_with roc y_true y_pred =
      calculate_metrics y_true y_pred) ∧
    ∃ b p, calculate_metrics y_true y_pred = Except.ok (none, b, p) := by
  have hne : build_true_binary y_true (lower_preds y_pred) ≠ [] := by
    intro h; rw [h] at hcond; simp at hcond
  have hsne := build_scores_ne_nil _ (lower_preds y_pred) hne
  obtain ⟨b, hb⟩ :=
    balancedAccuracyScore_ok _ (build_pred_binary y_true (lower_preds y_pred)) hne
  obtain ⟨pr, hpr, hlen2⟩ := precisionRecallCurve_ok _ _ hne hsne
  obtain ⟨v, hv⟩ := aucTrapezoid_ok pr.2 pr.1 hlen2
  constructor
  · intro roc
    simp only [calc_metrics_with, calculate_metrics]
    rw [if_pos hcond, if_pos hcond]
  · refine ⟨b, v, ?_⟩
    simp only [calculate_metrics, calc_metrics_with]
    rw [if_pos hcond]
    simp only [except_ok_bind, hb, hpr, hv]

/-- Two-class truth vector: the ROC routine is consulted and every metric
call succeeds, so AUROC is a numeric value. -/
lemma calc_metrics_two_class (y_true : List String) (y_pred : List (String × ℚ))
    (h0 : 0 ∈ build_true_binary y_true (lower_preds y_pred))
    (h1 : 1 ∈ build_true_binary y_true (lower_preds y_pred)) :
    ∃ a b p, calculate_metrics y_true y_pred = Except.ok (some a, b, p) := by
  have hne : build_true_binary y_true (lower_preds y_pred) ≠ [] :=
    List.ne_nil_of_mem h0
  have hsne := build_scores_ne_nil _ (lower_preds y_pred) hne
  obtain ⟨av, hroc⟩ := rocAucScore_ok_of_both _ _
    (build_lengths_eq y_true (lower_preds y_pred)) h0 h1
  have hne1 := dedup_len_ne_one _ h0 h1
  obtain ⟨b, hb⟩ :=
    balancedAccuracyScore_ok _ (build_pred_binary y_true (lower_preds y_pred)) hne
  obtain ⟨pr, hpr, hlen2⟩ := precisionRecallCurve_ok _ _ hne hsne
  obtain ⟨v, hv⟩ := aucTrapezoid_ok pr.2 pr.1 hlen2
  refine ⟨av, b, v, ?_⟩
  simp only [calculate_metrics, calc_metrics_with]
  rw [if_neg hne1]
  simp only [hroc, except_ok_bind, hb, hpr, hv]

/-- C2: when the binary truth vector holds exactly one distinct value, the
metric result does not depend on the ROC routine at all (it is never
called), AUROC is `None`, and `main` prints the explicit sentinel line;
when the binary truth vector contains both classes, a numeric AUROC value
is printed instead. -/
theorem claim_C2 (data : List Entry) :
    ((build_true_binary (extract_labels_and_predictions data).1
        (lower_preds (extract_labels_and_predictions data).2)).dedup.length = 1 →
      (∀ roc, calc_metrics_with roc (extract_labels_and_predictions data).1
          (extract_labels_and_predictions data).2 =
        calculate_metrics (extract_labels_and_predictions data).1
          (extract_labels_and_predictions data).2) ∧
      ∃ b p rest, calculate_metrics (extract_labels_and_predictions data).1
          (extract_labels_and_predictions data).2 = Except.ok (none, b, p) ∧
        run_metrics data = Except.ok
          ("AUROC: Not defined (only one class present in y_true)" :: rest)) ∧
    (0 ∈ build_true_binary (extract_labels_and_predictions data).1
        (lower_preds (extract_labels_and_predictions data).2) →
      1 ∈ build_true_binary (extract_labels_and_predictions data).1
        (lower_preds (extract_labels_and_predictions data).2) →
      ∃ a b p rest, calculate_metrics (extract_labels_and_predictions data).1
          (extract_labels_and_predictions data).2 = Except.ok (some a, b, p) ∧
        run_metrics data = Except.ok (("AUROC: " ++ toString a) :: rest)) := by
  constructor
  · intro hcond
    obtain ⟨hind, b, p, hcm⟩ := calc_metrics_one_class _ _ hcond
    refine ⟨hind, b, p,
      ["AUPRC: " ++ toString p, "Balanced Accuracy: " ++ toString b], hcm, ?_⟩
    simp only [run_metrics, hcm, except_ok_bind]
    rfl
  · intro h0 h1
    obtain ⟨a, b, p, hcm⟩ := calc_metrics_two_class _ _ h0 h1
    refine ⟨a, b, p,
      ["AUPRC: " ++ toString p, "Balanced Accuracy: " ++ toString b], hcm, ?_⟩
    simp only [run_metrics, hcm, except_ok_bind]
    rfl

/-- Witness for C2: a single all-positive record exercises the sentinel
branch, and adding a record whose true class is capitalised (so the
lowered prediction mismatches it) exercises the numeric branch. -/
theorem claim_C2_witness :
    ((build_true_binary
        (extract_labels_and_predictions [⟨"bat_001", [⟨"bat", mkRat 9 10⟩]⟩]).1
        (lower_preds
          (extract_labels_and_predictions
            [⟨"bat_001", [⟨"bat", mkRat 9 10⟩]⟩]).2)).dedup.length = 1 ∧
      ∃ b p rest, calculate_metrics
          (extract_labels_and_predictions [⟨"bat_001", [⟨"bat", mkRat 9 10⟩]⟩]).1
          (extract_labels_and_predictions [⟨"bat_001", [⟨"bat", mkRat 9 10⟩]⟩]).2 =
            Except.ok (none, b, p) ∧
        run_metrics [⟨"bat_001", [⟨"bat", mkRat 9 10⟩]⟩] = Except.ok
          ("AUROC: Not defined (only one class present in y_true)" :: rest)) ∧
    (0 ∈ build_true_binary
        (extract_labels_and_predictions
          [⟨"bat_001", [⟨"bat", mkRat 9 10⟩]⟩, ⟨"Cow_002", [⟨"Cow", mkRat 8 10⟩]⟩]).1
        (lower_preds (extract_labels_and_predictions
          [⟨"bat_001", [⟨"bat", mkRat 9 10⟩]⟩, ⟨"Cow_002", [⟨"Cow", mkRat 8 10⟩]⟩]).2) ∧
      ∃ a b p rest, calculate_metrics
          (extract_labels_and_predictions
            [⟨"bat_001", [⟨"bat", mkRat 9 10⟩]⟩, ⟨"Cow_002", [⟨"Cow", mkRat 8 10⟩]⟩]).1
          (extract_labels_and_predictions
            [⟨"bat_001", [⟨"bat", mkRat 9 10⟩]⟩, ⟨"Cow_002", [⟨"Cow", mkRat 8 10⟩]⟩]).2 =
            Except.ok (some a, b, p) ∧
        run_metrics
            [⟨"bat_001", [⟨"bat", mkRat 9 10⟩]⟩, ⟨"Cow_002", [⟨"Cow", mkRat 8 10⟩]⟩] =
          Except.ok (("AUROC: " ++ toString a) :: rest)) :=
  ⟨⟨by decide, ((claim_C2 [⟨"bat_001", [⟨"bat", mkRat 9 10⟩]⟩]).1 (by decide)).2⟩,
   ⟨by decide,
    (claim_C2 [⟨"bat_001", [⟨"bat", mkRat 9 10⟩]⟩, ⟨"Cow_002", [⟨"Cow", mkRat 8 10⟩]⟩]).2
      (by decide) (by decide)⟩⟩

/-- C5, evaluated at the failing input: with zero JSON files the loader
does report that zero files were found, but the metric computation then
aborts with the statistics-library error raised by the ROC routine on the
empty sample instead of an explicit "no data" error. -/
theorem claim_C5_code_eval (data_dir : String) :
    main_pipeline data_dir [] =
      (["Found 0 JSON files.",
        "No JSON files found in directory: " ++ data_dir],
       Except.error "sklearn ValueError: ROC AUC score is not defined in that case") := by
  rfl

/-- C7: an unparsable JSON file aborts the whole load: some parse error is
propagated out of the loader and out of the pipeline, and no partial
record list is returned. -/
theorem claim_C7 (data_dir : String) (parsed : List (Except String Entry))
    (msg : String) (h : Except.error msg ∈ parsed) :
    ∃ msg2, Except.error msg2 ∈ parsed ∧
      (load_json_files data_dir parsed).2 = Except.error msg2 ∧
      (main_pipeline data_dir parsed).2 = Except.error msg2 := by
  have key : ∀ ps : List (Except String Entry), Except.error msg ∈ ps →
      ∃ m2 : String, Except.error m2 ∈ ps ∧
        collect_parsed ps = Except.error m2 := by
    intro ps
    induction ps with
    | nil => intro hps; simp at hps
    | cons x xs ih =>
      intro hps
      cases x with
      | error e => exact ⟨e, by simp, rfl⟩
      | ok v =>
        have hxs : Except.error msg ∈ xs := by
          rcases List.mem_cons.mp hps with heq | hmem
          · exact absurd heq (by simp)
          · exact hmem
        obtain ⟨m2, hm2, hc⟩ := ih hxs
        refine ⟨m2, List.mem_cons_of_mem _ hm2, ?_⟩
        show collect_parsed (Except.ok v :: xs) = Except.error m2
        simp only [collect_parsed, except_ok_bind, hc, except_error_bind]
  obtain ⟨m2, hm2, hc⟩ := key parsed h
  refine ⟨m2, hm2, ?_, ?_⟩
  · simpa [load_json_files] using hc
  · simp only [main_pipeline, load_json_files, hc, except_error_bind]

/-- Witness for C7: a file set with one good record and one parse error. -/
theorem claim_C7_witness :
    Except.error "JSONDecodeError: Expecting value" ∈
      ([Except.ok ⟨"bat_001", []⟩,
        Except.error "JSONDecodeError: Expecting value"] :
          List (Except String Entry)) ∧
    ∃ msg2, Except.error msg2 ∈
        ([Except.ok ⟨"bat_001", []⟩,
          Except.error "JSONDecodeError: Expecting value"] :
            List (Except String Entry)) ∧
      (load_json_files "results"
        [Except.ok ⟨"bat_001", []⟩,
         Except.error "JSONDecodeError: Expecting value"]).2 = Except.error msg2 ∧
      (main_pipeline "results"
        [Except.ok ⟨"bat_001", []⟩,
         Except.error "JSONDecodeError: Expecting value"]).2 = Except.error msg2 :=
  ⟨by simp,
   claim_C7 "results"
     [Except.ok ⟨"bat_001", []⟩, Except.error "JSONDecodeError: Expecting value"]
     "JSONDecodeError: Expecting value" (by simp)⟩

end Biosonic
